import Mathlib

/-!
Shallow embedding of the live audio session core of the `english_learner`
repository (`src/components/LiveSession.tsx` plus the PCM16 codec of
`src/utils/audio.ts`).  The component's React callbacks are modelled as pure
transition functions over an explicit state record; side effects (starting /
stopping playback sources, console logging, arming the completion-debounce
timer) are reified as an `Action` list returned next to the new state.
Times (the output `AudioContext` clock) and sample values are rationals.
-/

namespace EnglishLearner

/-- Modelled from the spec: `src/utils/audio.ts` is not part of the provided
sources; §4.3 of the design describes its encode direction — clamp each
floating-point sample to `[-1, 1]`, then linearly scale to the signed 16-bit
range.  Clamping step. -/
def clampSample (x : ℚ) : ℚ := max (-1) (min 1 x)

/-- Modelled from the spec: linear scaling of a clamped sample to the signed
16-bit integer range (floor rounding; the spec fixes only clamping and
linearity). -/
def encodeSample (x : ℚ) : ℤ := ⌊clampSample x * 32767⌋

/-- Modelled from the spec: two's-complement 16-bit little-endian byte pair
for one encoded sample ("stored little-endian"). -/
def toLEBytes (z : ℤ) : List ℕ :=
  let u : ℕ := (z % 65536).toNat
  [u % 256, u / 256]

/-- Modelled from the spec: `createPCM16Blob` — encode a window of
floating-point samples into the PCM16 little-endian wire format. -/
def createPCM16Blob (samples : List ℚ) : List ℕ :=
  (samples.map fun x => toLEBytes (encodeSample x)).flatten

/-- Modelled from the spec: read one little-endian 16-bit two's-complement
sample from its two bytes. -/
def decodeInt16LE (lo hi : ℕ) : ℤ :=
  if lo + 256 * hi < 32768 then ((lo + 256 * hi : ℕ) : ℤ)
  else ((lo + 256 * hi : ℕ) : ℤ) - 65536

/-- Modelled from the spec: decode direction scaling, back into `[-1, 1]`. -/
def decodeSample (z : ℤ) : ℚ := (z : ℚ) / 32768

/-- Modelled from the spec: group a PCM16 byte stream into 16-bit samples;
a stream that is not a whole number of 16-bit samples is malformed and
yields `none` (the `DecodeError` case of §7). -/
def bytesToSamples : List ℕ → Option (List ℤ)
  | [] => some []
  | lo :: hi :: rest => (bytesToSamples rest).map (fun zs => decodeInt16LE lo hi :: zs)
  | [_] => none

/-- A decoded inbound audio buffer: mono samples at a fixed rate. -/
structure AudioBuffer where
  samples : List ℚ
  rate : ℚ
deriving DecidableEq

/-- Duration of a buffer, derived from sample count and rate
(`audioBuffer.duration` of the Web Audio `AudioBuffer`). -/
def AudioBuffer.duration (b : AudioBuffer) : ℚ := (b.samples.length : ℚ) / b.rate

/-- Modelled from the spec: `decodeAudioData(data, ctx, sampleRate, channels)`
of `src/utils/audio.ts` — PCM16 bytes to a playable mono buffer at the given
rate; fails with a `DecodeError` on malformed data.  The channel count is
fixed at mono by the caller. -/
def decodeAudioData (bytes : List ℕ) (rate : ℚ) (_channels : ℕ) :
    Except String AudioBuffer :=
  match bytesToSamples bytes with
  | none => .error "malformed PCM16 data"
  | some zs => .ok { samples := zs.map decodeSample, rate := rate }

/-- One scheduled/playing `AudioBufferSourceNode`, member of
`sourcesRef.current`. -/
structure PlaybackHandle where
  id : ℕ
  startTime : ℚ
  duration : ℚ
deriving DecidableEq

/-- Reified side effects of the session callbacks. -/
inductive Action where
  | startSource (id : ℕ) (t : ℚ)
  | stopSource (id : ℕ)
  | logError (msg : String)
  | armDebounce (ms : ℕ)
deriving DecidableEq

/-- The mutable state the `LiveSession` component threads through its
callbacks: `nextStartTimeRef`, `sourcesRef` (with a fresh-id counter for
handle identity), `isAiSpeaking`, `transcriptRef`, `isConnected`. -/
structure SessionState where
  nextStartTime : ℚ
  sources : List PlaybackHandle
  nextId : ℕ
  isAiSpeaking : Bool
  transcript : String
  isConnected : Bool
deriving DecidableEq

/-- State at mount: `nextStartTimeRef = 0`, no sources, empty transcript. -/
def initialState : SessionState :=
  { nextStartTime := 0, sources := [], nextId := 0, isAiSpeaking := false,
    transcript := "", isConnected := true }

/-- The `serverContent` payload of a `LiveServerMessage`, restricted to the
fields `handleServerMessage` reads.  `inlineAudio` carries the bytes of
`modelTurn.parts[0].inlineData.data` after base64 unwrapping. -/
structure ServerContent where
  interrupted : Bool
  turnComplete : Bool
  inputTranscription : Option String
  outputTranscription : Option String
  inlineAudio : Option (List ℕ)
deriving DecidableEq

/-- A `serverContent` with every field absent. -/
def emptyContent : ServerContent :=
  { interrupted := false, turnComplete := false, inputTranscription := none,
    outputTranscription := none, inlineAudio := none }

/-- A pure audio message carrying one inline PCM chunk. -/
def audioMsg (bytes : List ℕ) : ServerContent :=
  { emptyContent with inlineAudio := some bytes }

/-- `if (serverContent.modelTurn?.turnComplete) setIsAiSpeaking(false)`. -/
def applyTurnComplete (s : SessionState) (sc : ServerContent) : SessionState :=
  if sc.turnComplete then { s with isAiSpeaking := false } else s

/-- The two transcript-accumulation branches: input transcription is tagged
`User: `, output transcription `Tutor: `, each line newline-terminated. -/
def applyTranscripts (s : SessionState) (sc : ServerContent) : SessionState :=
  let s1 := match sc.inputTranscription with
    | some t => { s with transcript := s.transcript ++ "User: " ++ t ++ "\n" }
    | none => s
  match sc.outputTranscription with
  | some t => { s1 with transcript := s1.transcript ++ "Tutor: " ++ t ++ "\n" }
  | none => s1

/-- Schedule one decoded buffer: reset a stale `nextStartTime` to `now`
(`ctx.currentTime`), start a source at `nextStartTime`, advance
`nextStartTime` by the buffer's duration and register the handle. -/
def scheduleBuf (s : SessionState) (now : ℚ) (buf : AudioBuffer) :
    SessionState × List Action :=
  let start := if s.nextStartTime < now then now else s.nextStartTime
  let h : PlaybackHandle :=
    { id := s.nextId, startTime := start, duration := buf.duration }
  ({ s with nextStartTime := start + buf.duration,
            sources := s.sources ++ [h], nextId := s.nextId + 1 },
   [Action.startSource h.id start])

/-- The audio-output branch: set `isAiSpeaking`, decode, then schedule; a
decode failure is caught, logged and the buffer skipped. -/
def applyAudio (s : SessionState) (now : ℚ) (sc : ServerContent) :
    SessionState × List Action :=
  match sc.inlineAudio with
  | none => (s, [])
  | some bytes =>
    let s1 := { s with isAiSpeaking := true }
    match decodeAudioData bytes 24000 1 with
    | .error _ => (s1, [Action.logError "Error decoding audio"])
    | .ok buf => scheduleBuf s1 now buf

/-- `handleServerMessage`: the interruption branch stops every active source,
clears the set, zeroes `nextStartTime`, clears `isAiSpeaking` and returns;
otherwise turn-completion, transcription and inline audio are handled in the
source's order. -/
def handleServerMessage (s : SessionState) (now : ℚ) (sc : ServerContent) :
    SessionState × List Action :=
  if sc.interrupted then
    ({ s with sources := [], nextStartTime := 0, isAiSpeaking := false },
     s.sources.map fun h => Action.stopSource h.id)
  else
    applyAudio (applyTranscripts (applyTurnComplete s sc) sc) now sc

/-- `source.onended`: drop the handle from the active set; if the set became
empty, arm a 200 ms re-check before declaring silence. -/
def handleEnded (s : SessionState) (id : ℕ) : SessionState × List Action :=
  ({ s with sources := s.sources.filter fun h => h.id != id },
   if (s.sources.filter fun h => h.id != id).isEmpty then
     [Action.armDebounce 200]
   else [])

/-- The body of the armed `setTimeout`: declare silence only if the active
set is still empty when the 200 ms timer fires. -/
def debounceFire (s : SessionState) : SessionState :=
  if s.sources.isEmpty then { s with isAiSpeaking := false } else s

/-- Process a list of timed inbound messages in arrival order. -/
def runMessages : SessionState → List (ℚ × ServerContent) → SessionState
  | s, [] => s
  | s, (now, sc) :: rest => runMessages (handleServerMessage s now sc).1 rest

/-- Run a sequence of pure audio messages. -/
def runAudio (s : SessionState) (l : List (ℚ × List ℕ)) : SessionState :=
  runMessages s (l.map fun p => (p.1, audioMsg p.2))

/-- Gap-free, order-preserving scheduling between two consecutive handles:
starts are non-decreasing and the later start is past the earlier handle's
end. -/
def gapOK (a b : PlaybackHandle) : Prop :=
  a.startTime ≤ b.startTime ∧ a.startTime + a.duration ≤ b.startTime

/-- Scheduler invariant maintained by the message handler: the active set is
gap-free in registration order, durations are nonnegative, and the last
registered handle ends no later than `nextStartTime`. -/
def SchedInv (s : SessionState) : Prop :=
  List.Chain' gapOK s.sources ∧
  (∀ h ∈ s.sources, 0 ≤ h.duration) ∧
  (∀ h, s.sources.getLast? = some h → h.startTime + h.duration ≤ s.nextStartTime)

/-- The two transcript speakers. -/
inductive Speaker where
  | user
  | tutor
deriving DecidableEq

/-- A message carrying a single transcription event for one speaker. -/
def trMsg : Speaker → String → ServerContent
  | .user, t => { emptyContent with inputTranscription := some t }
  | .tutor, t => { emptyContent with outputTranscription := some t }

/-- The transcript line the component appends for one event. -/
def lineOf : Speaker → String → String
  | .user, t => "User: " ++ t ++ "\n"
  | .tutor, t => "Tutor: " ++ t ++ "\n"

/-- The transcript text accumulated from a list of events in order. -/
def renderTranscript : List (Speaker × String) → String
  | [] => ""
  | e :: rest => lineOf e.1 e.2 ++ renderTranscript rest

/-- Connection lifecycle as observed by the component (`isConnected` /
`error` state plus the spec's §4.1 names). -/
inductive ConnState where
  | connecting
  | connected
  | closed
  | errored
deriving DecidableEq

/-- The capture-side state.  `handlerMuted` models the `onaudioprocess`
closure installed by `startAudioInput`: `none` while no processor is
attached, otherwise `some m` where `m` is the value of the `isMuted` React
state variable captured lexically when the handler was created — the
handler is installed once and never reassigned, so this captured value does
not follow later `setIsMuted` updates.  `sent` is the list of frames handed
to `session.sendRealtimeInput`, in call order. -/
structure CaptureState where
  isMuted : Bool
  handlerMuted : Option Bool
  conn : ConnState
  sent : List (List ℕ)
deriving DecidableEq

/-- Capture state at mount: unmuted, no processor, connecting. -/
def initialCapture : CaptureState :=
  { isMuted := false, handlerMuted := none, conn := .connecting, sent := [] }

/-- `onopen`: `setIsConnected(true)` then `startAudioInput`. -/
def onOpen (s : CaptureState) : CaptureState :=
  { s with conn := .connected }

/-- `startAudioInput`: create the `ScriptProcessorNode` and install
`onaudioprocess`; the closure captures the current `isMuted` value. -/
def startAudioInput (s : CaptureState) : CaptureState :=
  { s with handlerMuted := some s.isMuted }

/-- `toggleMute`: `setIsMuted(!isMuted)` — flips the React state only; the
processor, stream and installed handler are untouched. -/
def toggleMute (s : CaptureState) : CaptureState :=
  { s with isMuted := !s.isMuted }

/-- `onerror`: surface "Connection lost", `setIsConnected(false)`; nothing
stops the capture processor. -/
def onError (s : CaptureState) : CaptureState :=
  { s with conn := .errored }

/-- `onclose`: `setIsConnected(false)`. -/
def onClose (s : CaptureState) : CaptureState :=
  { s with conn := .closed }

/-- The capture-side effect of `cleanup()`: the processor and source node
are disconnected, so `onaudioprocess` never fires again. -/
def cleanupCapture (s : CaptureState) : CaptureState :=
  { s with handlerMuted := none }

/-- One capture window (`onaudioprocess` firing): nothing happens without a
processor; with one, the handler tests its captured `isMuted` binding and,
unless that captured value is `true`, encodes the window and hands the
frame to `session.sendRealtimeInput` — with no check of the connection
state. -/
def captureWindow (s : CaptureState) (samples : List ℚ) : CaptureState :=
  match s.handlerMuted with
  | none => s
  | some m =>
    if m then s else { s with sent := s.sent ++ [createPCM16Blob samples] }

/-- The individual release operations `cleanup()` performs. -/
inductive RAction where
  | disconnectProcessor
  | disconnectSource
  | stopTrack (i : ℕ)
  | closeInputCtx
  | closeOutputCtx
  | stopPlayback (id : ℕ)
deriving DecidableEq

/-- The owned resources `cleanup()` releases: `processorRef`, `sourceRef`,
`streamRef` (a stream with its track ids, or `null`), `inputContextRef`,
`audioContextRef`, and the active playback sources `sourcesRef`. -/
structure Resources where
  processor : Bool
  sourceNode : Bool
  stream : Option (List ℕ)
  inputCtx : Bool
  outputCtx : Bool
  playback : List ℕ
deriving DecidableEq

/-- `cleanup()`: each ref is released if present and nulled; every track of
the stream is stopped; every active playback source is stopped and the set
cleared.  The released state and the release operations are returned. -/
def cleanup (r : Resources) : Resources × List RAction :=
  ({ processor := false, sourceNode := false, stream := none,
     inputCtx := false, outputCtx := false, playback := [] },
   (if r.processor then [RAction.disconnectProcessor] else [])
     ++ (if r.sourceNode then [RAction.disconnectSource] else [])
     ++ (match r.stream with
          | some ts => ts.map RAction.stopTrack
          | none => [])
     ++ (if r.inputCtx then [RAction.closeInputCtx] else [])
     ++ (if r.outputCtx then [RAction.closeOutputCtx] else [])
     ++ r.playback.map RAction.stopPlayback)

/-- `handleEndSession`: run `cleanup()` and hand the accumulated transcript
to `onEndSession`; the unmount effect runs the same `cleanup()`. -/
def handleEndSession (r : Resources) (transcript : String) :
    (Resources × List RAction) × String :=
  (cleanup r, transcript)

/-! ### Helper lemmas -/

lemma schedInv_congr {s t : SessionState} (hsrc : t.sources = s.sources)
    (hnext : t.nextStartTime = s.nextStartTime) (h : SchedInv s) : SchedInv t := by
  unfold SchedInv at *
  rw [hsrc, hnext]
  exact h

lemma applyTurnComplete_preserves (s : SessionState) (sc : ServerContent) :
    (applyTurnComplete s sc).sources = s.sources ∧
    (applyTurnComplete s sc).nextStartTime = s.nextStartTime ∧
    (applyTurnComplete s sc).nextId = s.nextId ∧
    (applyTurnComplete s sc).transcript = s.transcript ∧
    (applyTurnComplete s sc).isConnected = s.isConnected := by
  unfold applyTurnComplete
  split <;> exact ⟨rfl, rfl, rfl, rfl, rfl⟩

lemma applyTranscripts_preserves (s : SessionState) (sc : ServerContent) :
    (applyTranscripts s sc).sources = s.sources ∧
    (applyTranscripts s sc).nextStartTime = s.nextStartTime ∧
    (applyTranscripts s sc).nextId = s.nextId ∧
    (applyTranscripts s sc).isAiSpeaking = s.isAiSpeaking ∧
    (applyTranscripts s sc).isConnected = s.isConnected := by
  unfold applyTranscripts
  cases h1 : sc.inputTranscription <;> cases h2 : sc.outputTranscription <;>
    exact ⟨rfl, rfl, rfl, rfl, rfl⟩

lemma decodeAudioData_rate {bytes : List ℕ} {rate : ℚ} {c : ℕ}
    {buf : AudioBuffer} (h : decodeAudioData bytes rate c = Except.ok buf) :
    buf.rate = rate := by
  unfold decodeAudioData at h
  cases hbs : bytesToSamples bytes <;> rw [hbs] at h
  · exact absurd h (by simp)
  · cases h
    rfl

lemma decodeAudioData_duration_nonneg {bytes : List ℕ} {buf : AudioBuffer}
    (h : decodeAudioData bytes 24000 1 = Except.ok buf) : 0 ≤ buf.duration := by
  have hr := decodeAudioData_rate h
  unfold AudioBuffer.duration
  rw [hr]
  positivity

lemma nextStartTime_le_start (s : SessionState) (now : ℚ) :
    s.nextStartTime ≤ if s.nextStartTime < now then now else s.nextStartTime := by
  split
  · exact le_of_lt (by assumption)
  · exact le_refl _

lemma schedInv_scheduleBuf {s : SessionState} (now : ℚ) {buf : AudioBuffer}
    (hs : SchedInv s) (hd : 0 ≤ buf.duration) :
    SchedInv (scheduleBuf s now buf).1 := by
  obtain ⟨hchain, hdurs, hlast⟩ := hs
  unfold scheduleBuf SchedInv
  simp only
  set start := if s.nextStartTime < now then now else s.nextStartTime with hstart
  have hns : s.nextStartTime ≤ start := nextStartTime_le_start s now
  refine ⟨?_, ?_, ?_⟩
  · rw [List.chain'_append]
    refine ⟨hchain, List.chain'_singleton _, ?_⟩
    intro x hx y hy
    simp only [List.head?_cons, Option.mem_def, Option.some.injEq] at hy
    subst hy
    have hxl : s.sources.getLast? = some x := hx
    have hxmem : x ∈ s.sources := List.mem_of_mem_getLast? hx
    have hend : x.startTime + x.duration ≤ start := le_trans (hlast x hxl) hns
    exact ⟨le_trans (le_add_of_nonneg_right (hdurs x hxmem)) hend, hend⟩
  · intro h hmem
    rcases List.mem_append.mp hmem with hm | hm
    · exact hdurs h hm
    · simp only [List.mem_singleton] at hm
      subst hm
      exact hd
  · intro h hl
    rw [List.getLast?_concat] at hl
    cases hl
    exact le_refl _

lemma schedInv_handleServerMessage (s : SessionState) (now : ℚ)
    (sc : ServerContent) (hs : SchedInv s) :
    SchedInv (handleServerMessage s now sc).1 := by
  unfold handleServerMessage
  split
  · simp [SchedInv]
  · have h1 := applyTurnComplete_preserves s sc
    have h2 := applyTranscripts_preserves (applyTurnComplete s sc) sc
    have hs2 : SchedInv (applyTranscripts (applyTurnComplete s sc) sc) :=
      schedInv_congr (by rw [h2.1, h1.1]) (by rw [h2.2.1, h1.2.1]) hs
    unfold applyAudio
    cases ha : sc.inlineAudio with
    | none => exact hs2
    | some bytes =>
      simp only
      cases hd : decodeAudioData bytes 24000 1 with
      | error e => exact schedInv_congr rfl rfl hs2
      | ok buf =>
        exact schedInv_scheduleBuf now (schedInv_congr rfl rfl hs2)
          (decodeAudioData_duration_nonneg hd)

lemma schedInv_runMessages (msgs : List (ℚ × ServerContent)) :
    ∀ s : SessionState, SchedInv s → SchedInv (runMessages s msgs) := by
  induction msgs with
  | nil => exact fun s hs => hs
  | cons p rest ih =>
    intro s hs
    obtain ⟨now, sc⟩ := p
    exact ih _ (schedInv_handleServerMessage s now sc hs)

lemma schedInv_initialState : SchedInv initialState := by
  simp [SchedInv, initialState]

lemma handle_audioMsg_ok (s : SessionState) (now : ℚ) {bytes : List ℕ}
    {buf : AudioBuffer} (h : decodeAudioData bytes 24000 1 = Except.ok buf) :
    handleServerMessage s now (audioMsg bytes) =
      scheduleBuf { s with isAiSpeaking := true } now buf := by
  unfold handleServerMessage audioMsg emptyContent applyTurnComplete
    applyTranscripts applyAudio
  simp [h]

lemma handle_audioMsg_error (s : SessionState) (now : ℚ) {bytes : List ℕ}
    {e : String} (h : decodeAudioData bytes 24000 1 = Except.error e) :
    handleServerMessage s now (audioMsg bytes)
      = ({ s with isAiSpeaking := true },
         [Action.logError "Error decoding audio"]) := by
  unfold handleServerMessage audioMsg emptyContent applyTurnComplete
    applyTranscripts applyAudio
  simp [h]

lemma handle_trMsg (s : SessionState) (now : ℚ) (sp : Speaker) (t : String) :
    handleServerMessage s now (trMsg sp t)
      = ({ s with transcript := s.transcript ++ lineOf sp t }, []) := by
  cases sp <;>
    · unfold handleServerMessage trMsg emptyContent applyTurnComplete
        applyTranscripts applyAudio lineOf
      simp [String.append_assoc]

lemma runMessages_trMsgs (evs : List (Speaker × String)) :
    ∀ (s : SessionState) (now : ℚ),
    (runMessages s (evs.map fun e => (now, trMsg e.1 e.2))).transcript
      = s.transcript ++ renderTranscript evs := by
  induction evs with
  | nil =>
    intro s now
    simp [runMessages, renderTranscript]
  | cons e rest ih =>
    intro s now
    obtain ⟨sp, t⟩ := e
    simp only [List.map_cons, runMessages, handle_trMsg]
    rw [ih]
    simp [renderTranscript, String.append_assoc]

/-! ### Claim theorems -/

/-- C1: For every sequence of inbound audio buffers delivered without an
interruption, the scheduled start times are non-decreasing and each buffer's
scheduled start time is at least the previous buffer's start time plus the
previous buffer's duration; each buffer is scheduled at `nextStartTime`
(after resetting `nextStartTime` to the current clock time if it is in the
past) and `nextStartTime` is then advanced by exactly that buffer's
duration. -/
theorem scheduled_starts_gap_free (l : List (ℚ × List ℕ)) (s : SessionState)
    (now : ℚ) (bytes : List ℕ) (buf : AudioBuffer)
    (h : decodeAudioData bytes 24000 1 = Except.ok buf) :
    List.Chain' gapOK (runAudio initialState l).sources ∧
    (handleServerMessage s now (audioMsg bytes)).1.nextStartTime
      = (if s.nextStartTime < now then now else s.nextStartTime)
          + buf.duration ∧
    (handleServerMessage s now (audioMsg bytes)).2
      = [Action.startSource s.nextId
          (if s.nextStartTime < now then now else s.nextStartTime)] := by
  refine ⟨(schedInv_runMessages _ initialState schedInv_initialState).1, ?_, ?_⟩ <;>
    rw [handle_audioMsg_ok s now h] <;> rfl

/-- Witness for C1 at a concrete two-buffer run and one concrete
scheduling step. -/
theorem scheduled_starts_gap_free_witness :
    List.Chain' gapOK (runAudio initialState [(0, [0, 0]), (0, [0, 0])]).sources ∧
    (handleServerMessage initialState 5 (audioMsg [0, 0])).1.nextStartTime
      = (if initialState.nextStartTime < 5 then 5 else initialState.nextStartTime)
          + (AudioBuffer.mk [decodeSample (decodeInt16LE 0 0)] 24000).duration ∧
    (handleServerMessage initialState 5 (audioMsg [0, 0])).2
      = [Action.startSource initialState.nextId
          (if initialState.nextStartTime < 5 then 5
           else initialState.nextStartTime)] :=
  scheduled_starts_gap_free [(0, [0, 0]), (0, [0, 0])] initialState 5 [0, 0]
    (AudioBuffer.mk [decodeSample (decodeInt16LE 0 0)] 24000) rfl

/-- C2: Processing a message with `interrupted` set stops every playback
handle in the active set, empties the active set, resets `nextStartTime` to
zero and clears the "AI is speaking" state synchronously (no debounce is
armed); no previously scheduled buffer remains in the active set. -/
theorem interruption_clears_playback (s : SessionState) (now : ℚ)
    (sc : ServerContent) (hi : sc.interrupted = true) :
    (handleServerMessage s now sc).1.sources = [] ∧
    (handleServerMessage s now sc).1.nextStartTime = 0 ∧
    (handleServerMessage s now sc).1.isAiSpeaking = false ∧
    (handleServerMessage s now sc).2
      = s.sources.map (fun h => Action.stopSource h.id) ∧
    (∀ h ∈ s.sources, Action.stopSource h.id ∈ (handleServerMessage s now sc).2) ∧
    (∀ ms, Action.armDebounce ms ∉ (handleServerMessage s now sc).2) := by
  unfold handleServerMessage
  simp only [hi, if_true, ite_true]
  refine ⟨trivial, trivial, trivial, trivial, ?_, ?_⟩
  · intro h hm
    exact List.mem_map_of_mem _ hm
  · intro ms hm
    simp only [List.mem_map] at hm
    obtain ⟨h, _, habs⟩ := hm
    exact absurd habs (by simp)

/-- Witness for C2 at a concrete state with two active handles. -/
theorem interruption_clears_playback_witness :
    (handleServerMessage
        ⟨3, [⟨0, 0, 1⟩, ⟨1, 1, 1⟩], 2, true, "", true⟩ 7
        { emptyContent with interrupted := true }).1.sources = [] ∧
    (handleServerMessage
        ⟨3, [⟨0, 0, 1⟩, ⟨1, 1, 1⟩], 2, true, "", true⟩ 7
        { emptyContent with interrupted := true }).1.nextStartTime = 0 ∧
    (handleServerMessage
        ⟨3, [⟨0, 0, 1⟩, ⟨1, 1, 1⟩], 2, true, "", true⟩ 7
        { emptyContent with interrupted := true }).1.isAiSpeaking = false ∧
    (handleServerMessage
        ⟨3, [⟨0, 0, 1⟩, ⟨1, 1, 1⟩], 2, true, "", true⟩ 7
        { emptyContent with interrupted := true }).2
      = (([⟨0, 0, 1⟩, ⟨1, 1, 1⟩] : List PlaybackHandle).map
          (fun h => Action.stopSource h.id)) ∧
    (∀ h ∈ ([⟨0, 0, 1⟩, ⟨1, 1, 1⟩] : List PlaybackHandle),
      Action.stopSource h.id ∈ (handleServerMessage
        ⟨3, [⟨0, 0, 1⟩, ⟨1, 1, 1⟩], 2, true, "", true⟩ 7
        { emptyContent with interrupted := true }).2) ∧
    (∀ ms, Action.armDebounce ms ∉ (handleServerMessage
        ⟨3, [⟨0, 0, 1⟩, ⟨1, 1, 1⟩], 2, true, "", true⟩ 7
        { emptyContent with interrupted := true }).2) :=
  interruption_clears_playback
    ⟨3, [⟨0, 0, 1⟩, ⟨1, 1, 1⟩], 2, true, "", true⟩ 7
    { emptyContent with interrupted := true } rfl

/-- C5: Transcript lines preserve arrival order interleaved across both
speakers with no coalescing and no reordering, each line tagged with its
speaker; for the events user:"A", tutor:"B", user:"C" the accumulated
transcript is exactly the three tagged lines in that order. -/
theorem transcript_preserves_arrival_order (s : SessionState) (now : ℚ)
    (evs : List (Speaker × String)) :
    (runMessages s (evs.map fun e => (now, trMsg e.1 e.2))).transcript
      = s.transcript ++ renderTranscript evs ∧
    (runMessages initialState
        [(0, trMsg .user "A"), (0, trMsg .tutor "B"), (0, trMsg .user "C")]).transcript
      = "User: A\nTutor: B\nUser: C\n" := by
  refine ⟨runMessages_trMsgs evs s now, ?_⟩
  rfl

/-- C6: A failed decode of a single inbound buffer is logged and that buffer
alone is skipped: the scheduler's `nextStartTime`, active set, id counter,
transcript and connection flag are unchanged, the only effect is the log
entry, and a subsequent well-formed buffer is still decoded and scheduled. -/
theorem decode_failure_skips_buffer (s : SessionState) (now now' : ℚ)
    (bytes bytes' : List ℕ) (e : String) (buf' : AudioBuffer)
    (he : decodeAudioData bytes 24000 1 = Except.error e)
    (ho : decodeAudioData bytes' 24000 1 = Except.ok buf') :
    (handleServerMessage s now (audioMsg bytes)).1.nextStartTime
      = s.nextStartTime ∧
    (handleServerMessage s now (audioMsg bytes)).1.sources = s.sources ∧
    (handleServerMessage s now (audioMsg bytes)).1.nextId = s.nextId ∧
    (handleServerMessage s now (audioMsg bytes)).1.transcript = s.transcript ∧
    (handleServerMessage s now (audioMsg bytes)).1.isConnected
      = s.isConnected ∧
    (handleServerMessage s now (audioMsg bytes)).2
      = [Action.logError "Error decoding audio"] ∧
    (handleServerMessage (handleServerMessage s now (audioMsg bytes)).1 now'
        (audioMsg bytes')).2
      = [Action.startSource s.nextId
          (if s.nextStartTime < now' then now' else s.nextStartTime)] := by
  rw [handle_audioMsg_error s now he]
  refine ⟨rfl, rfl, rfl, rfl, rfl, rfl, ?_⟩
  rw [handle_audioMsg_ok _ now' ho]
  rfl

/-- Witness for C6: an odd-length byte chunk fails to decode at
`initialState`, a following two-byte chunk is still scheduled. -/
theorem decode_failure_skips_buffer_witness :
    (handleServerMessage initialState 2 (audioMsg [0])).1.nextStartTime
      = initialState.nextStartTime ∧
    (handleServerMessage initialState 2 (audioMsg [0])).1.sources
      = initialState.sources ∧
    (handleServerMessage initialState 2 (audioMsg [0])).1.nextId
      = initialState.nextId ∧
    (handleServerMessage initialState 2 (audioMsg [0])).1.transcript
      = initialState.transcript ∧
    (handleServerMessage initialState 2 (audioMsg [0])).1.isConnected
      = initialState.isConnected ∧
    (handleServerMessage initialState 2 (audioMsg [0])).2
      = [Action.logError "Error decoding audio"] ∧
    (handleServerMessage (handleServerMessage initialState 2 (audioMsg [0])).1 3
        (audioMsg [0, 0])).2
      = [Action.startSource initialState.nextId
          (if initialState.nextStartTime < 3 then 3
           else initialState.nextStartTime)] :=
  decode_failure_skips_buffer initialState 2 3 [0] [0, 0]
    "malformed PCM16 data" (AudioBuffer.mk [decodeSample (decodeInt16LE 0 0)] 24000)
    rfl rfl

/-- C10: A message whose `serverContent` has `interrupted` set is handled by
the early-return interruption branch alone, so any transcription text or
inline audio in the same message is discarded: the transcript is untouched,
no handle id is allocated and no source is started. -/
theorem interrupted_message_discards_payload (s : SessionState) (now : ℚ)
    (sc : ServerContent) (hi : sc.interrupted = true) :
    (handleServerMessage s now sc).1.transcript = s.transcript ∧
    (handleServerMessage s now sc).1.nextId = s.nextId ∧
    (handleServerMessage s now sc).1.sources = [] ∧
    (handleServerMessage s now sc).1.nextStartTime = 0 ∧
    ∀ i t, Action.startSource i t ∉ (handleServerMessage s now sc).2 := by
  unfold handleServerMessage
  simp only [hi, if_true, ite_true]
  refine ⟨trivial, trivial, trivial, trivial, ?_⟩
  intro i t hm
  simp only [List.mem_map] at hm
  obtain ⟨h, _, habs⟩ := hm
  exact absurd habs (by simp)

/-- Witness for C10: a message carrying an interruption together with a
transcription and an audio chunk leaves the transcript alone and starts
nothing. -/
theorem interrupted_message_discards_payload_witness :
    (handleServerMessage ⟨1, [⟨0, 0, 1⟩], 1, true, "User: hi\n", true⟩ 4
        ⟨true, false, some "hello", none, some [0, 0]⟩).1.transcript
      = (⟨1, [⟨0, 0, 1⟩], 1, true, "User: hi\n", true⟩ : SessionState).transcript ∧
    (handleServerMessage ⟨1, [⟨0, 0, 1⟩], 1, true, "User: hi\n", true⟩ 4
        ⟨true, false, some "hello", none, some [0, 0]⟩).1.nextId
      = (⟨1, [⟨0, 0, 1⟩], 1, true, "User: hi\n", true⟩ : SessionState).nextId ∧
    (handleServerMessage ⟨1, [⟨0, 0, 1⟩], 1, true, "User: hi\n", true⟩ 4
        ⟨true, false, some "hello", none, some [0, 0]⟩).1.sources = [] ∧
    (handleServerMessage ⟨1, [⟨0, 0, 1⟩], 1, true, "User: hi\n", true⟩ 4
        ⟨true, false, some "hello", none, some [0, 0]⟩).1.nextStartTime = 0 ∧
    ∀ i t, Action.startSource i t ∉
      (handleServerMessage ⟨1, [⟨0, 0, 1⟩], 1, true, "User: hi\n", true⟩ 4
        ⟨true, false, some "hello", none, some [0, 0]⟩).2 :=
  interrupted_message_discards_payload
    ⟨1, [⟨0, 0, 1⟩], 1, true, "User: hi\n", true⟩ 4
    ⟨true, false, some "hello", none, some [0, 0]⟩ rfl

lemma count_map_stopTrack (ts : List ℕ) (i : ℕ) :
    (ts.map RAction.stopTrack).count (RAction.stopTrack i) = ts.count i := by
  induction ts with
  | nil => rfl
  | cons a ts ih =>
    by_cases h : a = i <;> simp [List.count_cons, ih, h]

lemma count_map_stopPlayback (ids : List ℕ) (i : ℕ) :
    (ids.map RAction.stopPlayback).count (RAction.stopPlayback i)
      = ids.count i := by
  induction ids with
  | nil => rfl
  | cons a ids ih =>
    by_cases h : a = i <;> simp [List.count_cons, ih, h]

lemma count_map_stopTrack_ne (ts : List ℕ) (a : RAction)
    (ha : ∀ i, a ≠ RAction.stopTrack i) :
    (ts.map RAction.stopTrack).count a = 0 := by
  rw [List.count_eq_zero]
  intro hm
  obtain ⟨i, _, hi⟩ := List.mem_map.mp hm
  exact ha i hi.symm

lemma count_map_stopPlayback_ne (ids : List ℕ) (a : RAction)
    (ha : ∀ i, a ≠ RAction.stopPlayback i) :
    (ids.map RAction.stopPlayback).count a = 0 := by
  rw [List.count_eq_zero]
  intro hm
  obtain ⟨i, _, hi⟩ := List.mem_map.mp hm
  exact ha i hi.symm

/-- C4: Calling the cleanup routine twice in succession produces no error and
performs no further release: the second call emits no release operation and
leaves the state unchanged; the explicit-end path runs the same routine; and
the first call releases each owned resource exactly once — one disconnect
per node present, one stop per stream track, one close per audio context,
one stop per active playback source. -/
theorem cleanup_idempotent_releases_once (r : Resources) (t : String) :
    (cleanup (cleanup r).1).2 = [] ∧
    (cleanup (cleanup r).1).1 = (cleanup r).1 ∧
    (handleEndSession r t).1 = cleanup r ∧
    (cleanup r).2.count RAction.disconnectProcessor
      = (if r.processor then 1 else 0) ∧
    (cleanup r).2.count RAction.disconnectSource
      = (if r.sourceNode then 1 else 0) ∧
    (cleanup r).2.count RAction.closeInputCtx
      = (if r.inputCtx then 1 else 0) ∧
    (cleanup r).2.count RAction.closeOutputCtx
      = (if r.outputCtx then 1 else 0) ∧
    (∀ i, (cleanup r).2.count (RAction.stopTrack i)
      = (r.stream.getD []).count i) ∧
    (∀ i, (cleanup r).2.count (RAction.stopPlayback i)
      = r.playback.count i) := by
  obtain ⟨p, sn, st, ic, oc, pb⟩ := r
  refine ⟨rfl, rfl, rfl, ?_, ?_, ?_, ?_, ?_, ?_⟩ <;>
    cases p <;> cases sn <;> cases ic <;> cases oc <;> cases st <;>
      simp [cleanup, List.count_append, List.count_cons,
        count_map_stopTrack, count_map_stopPlayback,
        count_map_stopTrack_ne, count_map_stopPlayback_ne]

lemma handle_nonInterrupted_noAudio (s : SessionState) (now : ℚ)
    (sc : ServerContent) (hi : sc.interrupted = false)
    (hia : sc.inlineAudio = none) :
    handleServerMessage s now sc
      = (applyTranscripts (applyTurnComplete s sc) sc, []) := by
  unfold handleServerMessage applyAudio
  simp [hi, hia]

/-- C3 (code bug): the `onaudioprocess` closure keeps the `isMuted` value
captured when the handler was installed, so after toggling mute the next
capture window still encodes and sends a frame even though the mute flag is
set; the toggle itself leaves the processor untouched. -/
theorem muted_window_still_sends (w : List ℚ) :
    (toggleMute (startAudioInput initialCapture)).isMuted = true ∧
    (toggleMute (startAudioInput initialCapture)).handlerMuted
      = (startAudioInput initialCapture).handlerMuted ∧
    (captureWindow (toggleMute (startAudioInput initialCapture)) w).sent
      = [createPCM16Blob w] :=
  ⟨rfl, rfl, rfl⟩

/-- C7 counterexample: after the connection reaches `Errored` the capture
callback still hands the captured frame to the transport session object —
nothing in the component drops the send based on connection state. -/
theorem frame_forwarded_after_errored :
    (onError (startAudioInput (onOpen initialCapture))).conn
      = ConnState.errored ∧
    (captureWindow (onError (startAudioInput (onOpen initialCapture)))
        (List.replicate 4096 0)).sent
      = [createPCM16Blob (List.replicate 4096 0)] :=
  ⟨rfl, rfl⟩

/-- C7 (amended): after `cleanup()` the processor is disconnected, so a
capture window performs no send at all (and nothing crashes); while a
processor is attached with an unmuted captured flag — whatever the
connection state — the capture callback appends the encoded frame to the
transport send sequence. -/
theorem send_drop_depends_on_processor (s s' : CaptureState) (w : List ℚ)
    (hnone : s.handlerMuted = none) (hsome : s'.handlerMuted = some false) :
    captureWindow s w = s ∧
    (cleanupCapture s').handlerMuted = none ∧
    captureWindow (cleanupCapture s') w = cleanupCapture s' ∧
    (captureWindow s' w).sent = s'.sent ++ [createPCM16Blob w] := by
  refine ⟨?_, rfl, rfl, ?_⟩
  · unfold captureWindow
    rw [hnone]
  · unfold captureWindow
    rw [hsome]
    simp

/-- Witness for the amended C7 at a cleaned-up state and at a live capture
state. -/
theorem send_drop_depends_on_processor_witness :
    captureWindow initialCapture [] = initialCapture ∧
    (cleanupCapture (startAudioInput initialCapture)).handlerMuted = none ∧
    captureWindow (cleanupCapture (startAudioInput initialCapture)) []
      = cleanupCapture (startAudioInput initialCapture) ∧
    (captureWindow (startAudioInput initialCapture) []).sent
      = (startAudioInput initialCapture).sent ++ [createPCM16Blob []] :=
  send_drop_depends_on_processor initialCapture
    (startAudioInput initialCapture) [] rfl rfl

/-- C8 counterexample: a `modelTurn.turnComplete` message clears the
"AI is speaking" state immediately — with no debounce action — while a
scheduled playback handle is still in the active set. -/
theorem turnComplete_clears_speaking_despite_active_handle :
    (handleServerMessage (handleServerMessage initialState 0 (audioMsg [0, 0])).1
        0 { emptyContent with turnComplete := true }).1.isAiSpeaking = false ∧
    (handleServerMessage (handleServerMessage initialState 0 (audioMsg [0, 0])).1
        0 { emptyContent with turnComplete := true }).1.sources.length = 1 ∧
    (handleServerMessage (handleServerMessage initialState 0 (audioMsg [0, 0])).1
        0 { emptyContent with turnComplete := true }).2 = [] ∧
    (handleServerMessage initialState 0 (audioMsg [0, 0])).1.isAiSpeaking
      = true := by
  rw [@handle_audioMsg_ok initialState 0 [0, 0]
    (AudioBuffer.mk [decodeSample (decodeInt16LE 0 0)] 24000) rfl]
  rw [handle_nonInterrupted_noAudio _ 0 _ rfl rfl]
  exact ⟨rfl, rfl, rfl, rfl⟩

/-- C8 (amended): "AI is speaking" is set when an inline-audio message
arrives; a `modelTurn.turnComplete` message clears it immediately and
unconditionally, with no debounce and without touching the active set; the
200 ms debounce applies only to the natural-completion path — when
`onended` empties the active set a 200 ms re-check is armed, and firing it
clears the state only if the set is still empty. -/
theorem speaking_state_transitions (s s' s'' : SessionState) (now now' : ℚ)
    (sc : ServerContent) (id : ℕ) (bytes : List ℕ) (buf : AudioBuffer)
    (hi : sc.interrupted = false) (ht : sc.turnComplete = true)
    (hia : sc.inlineAudio = none)
    (ho : decodeAudioData bytes 24000 1 = Except.ok buf) :
    (handleServerMessage s now sc).1.isAiSpeaking = false ∧
    (handleServerMessage s now sc).1.sources = s.sources ∧
    (handleServerMessage s now sc).2 = [] ∧
    (handleServerMessage s' now' (audioMsg bytes)).1.isAiSpeaking = true ∧
    ((handleEnded s'' id).1.sources.isEmpty = true →
      (handleEnded s'' id).2 = [Action.armDebounce 200]) ∧
    ((handleEnded s'' id).1.sources.isEmpty = false →
      (handleEnded s'' id).2 = []) ∧
    (debounceFire s'').isAiSpeaking
      = (if s''.sources.isEmpty then false else s''.isAiSpeaking) := by
  rw [handle_nonInterrupted_noAudio s now sc hi hia]
  rw [handle_audioMsg_ok s' now' ho]
  refine ⟨?_, ?_, rfl, rfl, ?_, ?_, ?_⟩
  · rw [(applyTranscripts_preserves _ sc).2.2.2.1]
    unfold applyTurnComplete
    rw [ht]
    rfl
  · rw [(applyTranscripts_preserves _ sc).1, (applyTurnComplete_preserves s sc).1]
  · intro h
    have h' : (s''.sources.filter fun x => x.id != id).isEmpty = true := h
    exact if_pos h'
  · intro h
    have h' : (s''.sources.filter fun x => x.id != id).isEmpty = false := h
    exact if_neg (by simp [h'])
  · unfold debounceFire
    split <;> simp_all

/-- Witness for the amended C8 at concrete states: a turn-complete message,
a concrete audio chunk and a one-handle state for the completion path. -/
theorem speaking_state_transitions_witness :
    (handleServerMessage ⟨1, [⟨0, 0, 1⟩], 1, true, "", true⟩ 0
        { emptyContent with turnComplete := true }).1.isAiSpeaking = false ∧
    (handleServerMessage ⟨1, [⟨0, 0, 1⟩], 1, true, "", true⟩ 0
        { emptyContent with turnComplete := true }).1.sources
      = (⟨1, [⟨0, 0, 1⟩], 1, true, "", true⟩ : SessionState).sources ∧
    (handleServerMessage ⟨1, [⟨0, 0, 1⟩], 1, true, "", true⟩ 0
        { emptyContent with turnComplete := true }).2 = [] ∧
    (handleServerMessage initialState 2 (audioMsg [0, 0])).1.isAiSpeaking
      = true ∧
    ((handleEnded ⟨1, [⟨0, 0, 1⟩], 1, true, "", true⟩ 0).1.sources.isEmpty
        = true →
      (handleEnded ⟨1, [⟨0, 0, 1⟩], 1, true, "", true⟩ 0).2
        = [Action.armDebounce 200]) ∧
    ((handleEnded ⟨1, [⟨0, 0, 1⟩], 1, true, "", true⟩ 0).1.sources.isEmpty
        = false →
      (handleEnded ⟨1, [⟨0, 0, 1⟩], 1, true, "", true⟩ 0).2 = []) ∧
    (debounceFire ⟨1, [⟨0, 0, 1⟩], 1, true, "", true⟩).isAiSpeaking
      = (if (⟨1, [⟨0, 0, 1⟩], 1, true, "", true⟩ : SessionState).sources.isEmpty
         then false
         else (⟨1, [⟨0, 0, 1⟩], 1, true, "", true⟩ : SessionState).isAiSpeaking) :=
  speaking_state_transitions ⟨1, [⟨0, 0, 1⟩], 1, true, "", true⟩ initialState
    ⟨1, [⟨0, 0, 1⟩], 1, true, "", true⟩ 0 2
    { emptyContent with turnComplete := true } 0 [0, 0]
    (AudioBuffer.mk [decodeSample (decodeInt16LE 0 0)] 24000) rfl rfl rfl rfl

lemma clampSample_mem (x : ℚ) : -1 ≤ clampSample x ∧ clampSample x ≤ 1 := by
  unfold clampSample
  exact ⟨le_max_left _ _, max_le (by norm_num) (min_le_left _ _)⟩

lemma encodeSample_bounds (x : ℚ) :
    -32767 ≤ encodeSample x ∧ encodeSample x ≤ 32767 := by
  obtain ⟨h1, h2⟩ := clampSample_mem x
  unfold encodeSample
  constructor
  · rw [Int.le_floor]
    push_cast
    linarith
  · have hle : clampSample x * 32767 ≤ 32767 := by linarith
    calc ⌊clampSample x * 32767⌋ ≤ ⌊(32767 : ℚ)⌋ := Int.floor_le_floor hle
    _ = 32767 := by norm_num

lemma encodeSample_of_ge_one {x : ℚ} (h : 1 ≤ x) : encodeSample x = 32767 := by
  unfold encodeSample clampSample
  rw [min_eq_left h, max_eq_right (by norm_num : (-1 : ℚ) ≤ 1), one_mul]
  norm_num

lemma encodeSample_of_le_neg_one {x : ℚ} (h : x ≤ -1) :
    encodeSample x = -32767 := by
  unfold encodeSample clampSample
  rw [min_eq_right (le_trans h (by norm_num)), max_eq_left h]
  norm_num

lemma encodeSample_of_mem {x : ℚ} (h1 : -1 ≤ x) (h2 : x ≤ 1) :
    encodeSample x = ⌊x * 32767⌋ := by
  unfold encodeSample clampSample
  rw [min_eq_right h2, max_eq_right h1]

lemma toLEBytes_decode {z : ℤ} (h1 : -32768 ≤ z) (h2 : z < 32768) :
    ∃ lo hi, toLEBytes z = [lo, hi] ∧ lo < 256 ∧ hi < 256 ∧
      decodeInt16LE lo hi = z := by
  have hz : (0 : ℤ) ≤ z % 65536 := Int.emod_nonneg z (by norm_num)
  have hz2 : z % 65536 < 65536 := Int.emod_lt_of_pos z (by norm_num)
  refine ⟨(z % 65536).toNat % 256, (z % 65536).toNat / 256, rfl, ?_, ?_, ?_⟩
  · exact Nat.mod_lt _ (by norm_num)
  · omega
  · unfold decodeInt16LE
    rw [Nat.mod_add_div]
    split <;> omega

lemma decodeInt16LE_bounds {lo hi : ℕ} (h1 : lo < 256) (h2 : hi < 256) :
    -32768 ≤ decodeInt16LE lo hi ∧ decodeInt16LE lo hi < 32768 := by
  unfold decodeInt16LE
  split <;> omega

lemma decodeSample_mem {z : ℤ} (h1 : -32768 ≤ z) (h2 : z < 32768) :
    -1 ≤ decodeSample z ∧ decodeSample z ≤ 1 := by
  unfold decodeSample
  constructor
  · rw [le_div_iff₀ (by norm_num : (0 : ℚ) < 32768)]
    calc (-1 : ℚ) * 32768 = ((-32768 : ℤ) : ℚ) := by norm_num
    _ ≤ (z : ℚ) := by exact_mod_cast h1
  · rw [div_le_one (by norm_num : (0 : ℚ) < 32768)]
    calc (z : ℚ) ≤ ((32768 : ℤ) : ℚ) := by exact_mod_cast h2.le
    _ = 32768 := by norm_num

lemma bytesToSamples_length : ∀ (bytes : List ℕ) (zs : List ℤ),
    bytesToSamples bytes = some zs → bytes.length = 2 * zs.length
  | [], zs, h => by
      simp only [bytesToSamples, Option.some.injEq] at h
      simp [← h]
  | [b], zs, h => by
      simp [bytesToSamples] at h
  | lo :: hi :: rest, zs, h => by
      simp only [bytesToSamples, Option.map_eq_some'] at h
      obtain ⟨zs', h1, h2⟩ := h
      have ih := bytesToSamples_length rest zs' h1
      subst h2
      simp only [List.length_cons, ih]
      ring

lemma bytesToSamples_createPCM16Blob : ∀ samples : List ℚ,
    bytesToSamples (createPCM16Blob samples)
      = some (samples.map encodeSample)
  | [] => rfl
  | x :: xs => by
      obtain ⟨hb1, hb2⟩ := encodeSample_bounds x
      obtain ⟨lo, hi, hlh, _, _, hdec⟩ :=
        @toLEBytes_decode (encodeSample x) (by omega) (by omega)
      have ih := bytesToSamples_createPCM16Blob xs
      simp only [createPCM16Blob, List.map_cons, List.flatten_cons] at ih ⊢
      rw [hlh]
      simp [bytesToSamples, ih, hdec]

lemma decodeAudioData_count {bytes : List ℕ} {buf : AudioBuffer}
    (h : decodeAudioData bytes 24000 1 = Except.ok buf) :
    buf.samples.length = bytes.length / 2 ∧
    buf.duration = ((bytes.length / 2 : ℕ) : ℚ) / 24000 := by
  unfold decodeAudioData at h
  cases hbs : bytesToSamples bytes <;> rw [hbs] at h
  · exact absurd h (by simp)
  case some zs =>
    cases h
    have hlen := bytesToSamples_length bytes zs hbs
    have hcount : zs.length = bytes.length / 2 := by omega
    refine ⟨by simpa using hcount, ?_⟩
    unfold AudioBuffer.duration
    simp [hcount]

/-- C9: Encoding clamps each sample to `[-1, 1]` (out-of-range values are
clamped, never wrapped), linearly scales it to the signed 16-bit range and
stores it little-endian; decoding is the inverse mapping back to samples in
`[-1, 1]` with sample count `bytes/2` and duration `count / rate`, so a
round trip through the codec yields duration `n / 24000` for an `n`-sample
window. -/
theorem pcm16_codec_clamps_scales_le :
    (∀ x : ℚ, 1 ≤ x → encodeSample x = 32767) ∧
    (∀ x : ℚ, x ≤ -1 → encodeSample x = -32767) ∧
    (∀ x : ℚ, -32767 ≤ encodeSample x ∧ encodeSample x ≤ 32767) ∧
    (∀ x : ℚ, -1 ≤ x → x ≤ 1 → encodeSample x = ⌊x * 32767⌋) ∧
    (∀ z : ℤ, -32768 ≤ z → z < 32768 →
      ∃ lo hi, toLEBytes z = [lo, hi] ∧ lo < 256 ∧ hi < 256 ∧
        decodeInt16LE lo hi = z) ∧
    (∀ lo hi : ℕ, lo < 256 → hi < 256 →
      -1 ≤ decodeSample (decodeInt16LE lo hi) ∧
        decodeSample (decodeInt16LE lo hi) ≤ 1) ∧
    (∀ (bytes : List ℕ) (buf : AudioBuffer),
      decodeAudioData bytes 24000 1 = Except.ok buf →
      buf.samples.length = bytes.length / 2 ∧
      buf.duration = ((bytes.length / 2 : ℕ) : ℚ) / 24000) ∧
    (∀ samples : List ℚ, ∃ buf : AudioBuffer,
      decodeAudioData (createPCM16Blob samples) 24000 1 = Except.ok buf ∧
      buf.duration = (samples.length : ℚ) / 24000) := by
  refine ⟨fun x h => encodeSample_of_ge_one h,
    fun x h => encodeSample_of_le_neg_one h,
    encodeSample_bounds,
    fun x h1 h2 => encodeSample_of_mem h1 h2,
    fun z h1 h2 => toLEBytes_decode h1 h2,
    fun lo hi h1 h2 => decodeSample_mem (decodeInt16LE_bounds h1 h2).1
      (decodeInt16LE_bounds h1 h2).2,
    fun bytes buf h => decodeAudioData_count h,
    fun samples => ?_⟩
  refine ⟨AudioBuffer.mk ((samples.map encodeSample).map decodeSample) 24000,
    ?_, ?_⟩
  · unfold decodeAudioData
    rw [bytesToSamples_createPCM16Blob]
  · unfold AudioBuffer.duration
    simp

/-- Witness for C9 at concrete samples, bytes and byte pairs. -/
theorem pcm16_codec_clamps_scales_le_witness :
    encodeSample 1 = 32767 ∧
    encodeSample (-1) = -32767 ∧
    (-32767 ≤ encodeSample 0 ∧ encodeSample 0 ≤ 32767) ∧
    encodeSample 0 = ⌊(0 : ℚ) * 32767⌋ ∧
    (∃ lo hi, toLEBytes (-1) = [lo, hi] ∧ lo < 256 ∧ hi < 256 ∧
      decodeInt16LE lo hi = -1) ∧
    (-1 ≤ decodeSample (decodeInt16LE 255 255) ∧
      decodeSample (decodeInt16LE 255 255) ≤ 1) ∧
    ((AudioBuffer.mk [decodeSample (decodeInt16LE 0 0)] 24000).samples.length
        = ([0, 0] : List ℕ).length / 2 ∧
      (AudioBuffer.mk [decodeSample (decodeInt16LE 0 0)] 24000).duration
        = ((([0, 0] : List ℕ).length / 2 : ℕ) : ℚ) / 24000) ∧
    (∃ buf : AudioBuffer,
      decodeAudioData (createPCM16Blob [0]) 24000 1 = Except.ok buf ∧
      buf.duration = (([0] : List ℚ).length : ℚ) / 24000) :=
  ⟨pcm16_codec_clamps_scales_le.1 1 (le_refl 1),
   pcm16_codec_clamps_scales_le.2.1 (-1) (le_refl (-1)),
   pcm16_codec_clamps_scales_le.2.2.1 0,
   pcm16_codec_clamps_scales_le.2.2.2.1 0 (by norm_num) (by norm_num),
   pcm16_codec_clamps_scales_le.2.2.2.2.1 (-1) (by norm_num) (by norm_num),
   pcm16_codec_clamps_scales_le.2.2.2.2.2.1 255 255 (by norm_num) (by norm_num),
   pcm16_codec_clamps_scales_le.2.2.2.2.2.2.1 [0, 0]
     (AudioBuffer.mk [decodeSample (decodeInt16LE 0 0)] 24000) rfl,
   pcm16_codec_clamps_scales_le.2.2.2.2.2.2.2 [0]⟩

end EnglishLearner
